import Mathlib

/-!
Verification of the agent control loop in `app/agent/toolcall.py`
(`ToolCallAgent`): the think/act turn controller, the tool executor, the
special-tool policy, the question classifier and the ask-user tool-call
synthesizer.  Python strings are modelled as `String`/`List Char` (text here
is ASCII, so `Char.toLower` agrees with Python's `str.lower`), machine-level
concerns do not arise, and the external collaborators (the LLM completion
endpoint, the JSON parser of the standard library, and the registered tools)
are parameters of the model.
-/

namespace OM

/-! ### Basic string helpers (models of the Python string operations used) -/

/-- Model of Python `str.lower` on a character (ASCII inputs). -/
def lowerChar (c : Char) : Char := c.toLower

/-- Model of Python `str.lower` on a string as a character list. -/
def lowerL (s : List Char) : List Char := s.map lowerChar

/-- Boolean substring test: `needle` occurs contiguously inside `hay`
(model of Python's `needle in hay`). -/
def infixOf (needle : List Char) : List Char → Bool
  | [] => decide (needle = [])
  | c :: rest => needle.isPrefixOf (c :: rest) || infixOf needle rest

/-- Model of Python `str.lower` at the `String` level. -/
def strLower (s : String) : String := ⟨lowerL s.data⟩

/-- Model of Python slicing `s[:n]`. -/
def strTake (s : String) (n : Nat) : String := ⟨s.data.take n⟩

/-! ### Data model (`app/schema`): messages, tool calls, agent state -/

/-- Conversation roles. -/
inductive Role where
  | system | user | assistant | tool
  deriving DecidableEq, Repr

/-- The `Function` payload of a tool call: a tool name and a JSON-encoded
argument string (`None` modelled as `Option.none`). -/
structure Function where
  name : String
  arguments : Option String
  deriving DecidableEq, Repr

/-- A tool call: identifier, and the function reference.  The `type` tag is
the constant string `function` and is omitted. -/
structure ToolCall where
  id : String
  function : Function
  deriving DecidableEq, Repr

/-- One conversation turn. -/
structure Message where
  role : Role
  content : String
  tool_call_id : Option String := none
  name : Option String := none
  tool_calls : List ToolCall := []
  deriving DecidableEq, Repr

/-- `Message.user_message`. -/
def Message.userMessage (content : String) : Message :=
  { role := .user, content := content }

/-- `Message.assistant_message`. -/
def Message.assistantMessage (content : String) : Message :=
  { role := .assistant, content := content }

/-- `Message.tool_message(content, tool_call_id, name)`. -/
def Message.toolMessage (content : String) (id : String) (name : String) : Message :=
  { role := .tool, content := content, tool_call_id := some id, name := some name }

/-- `Message.from_tool_calls(content, tool_calls)`: an assistant message
carrying structured tool calls. -/
def Message.fromToolCalls (content : String) (tcs : List ToolCall) : Message :=
  { role := .assistant, content := content, tool_calls := tcs }

/-- Agent run state (`AgentState`); the claims concern RUNNING and FINISHED. -/
inductive AgentState where
  | IDLE | RUNNING | FINISHED | ERROR
  deriving DecidableEq, Repr

/-- Tool-choice policy (`ToolChoice`). -/
inductive ToolChoice where
  | AUTO | REQUIRED | NONE
  deriving DecidableEq, Repr

/-! ### Question classifier (`ToolCallAgent._is_asking_question`) -/

/-- A question pattern, as used in the `question_patterns` list: either a
case-insensitive literal substring (regex `(?i)lit`), or a case-insensitive
`first.*(?:alt1|alt2|...)` pattern whose `.` does not match a newline. -/
inductive Pattern where
  | lit : List Char → Pattern
  | dotStar : List Char → List (List Char) → Pattern
  deriving DecidableEq, Repr

/-- After the leading word of a `dotStar` pattern matched, `.*` may consume
any run of non-newline characters before one of the alternatives matches. -/
def afterDot (alts : List (List Char)) : List Char → Bool
  | [] => alts.any (fun a => decide (a = []))
  | c :: rest => alts.any (fun a => a.isPrefixOf (c :: rest)) ||
      (decide (c ≠ '\n') && afterDot alts rest)

/-- Search for `first` followed (with no intervening newline) by one of
`alts`, starting anywhere in the text. -/
def scanDotStar (first : List Char) (alts : List (List Char)) : List Char → Bool
  | [] => decide (first = []) && afterDot alts []
  | c :: rest => (first.isPrefixOf (c :: rest) &&
      afterDot alts (List.drop first.length (c :: rest))) ||
      scanDotStar first alts rest

/-- `re.search(pattern, text)` for the two pattern shapes above; the `(?i)`
flag is modelled by matching the (lowercase) pattern against the lowercased
text. -/
def pmatch (p : Pattern) (text : List Char) : Bool :=
  match p with
  | .lit w => infixOf w (lowerL text)
  | .dotStar first alts => scanDotStar first alts (lowerL text)

/-- The `question_patterns` list of `_is_asking_question`, in source order. -/
def questionPatterns : List Pattern :=
  [ .lit "would you like".data
  , .lit "do you want".data
  , .lit "can you".data
  , .lit "could you".data
  , .lit "please provide".data
  , .lit "please let me know".data
  , .lit "please specify".data
  , .lit "tell me".data
  , .dotStar "what".data ["would".data, "should".data, "can".data, "could".data]
  , .dotStar "how".data ["would".data, "should".data, "can".data, "could".data]
  , .dotStar "which".data ["option".data, "choice".data]
  , .lit "if you have".data
  , .lit "if you would like".data ]

/-- The `please let me know` pattern, singled out by the carve-out in the
pattern loop. -/
def plmkPattern : Pattern := .lit "please let me know".data

/-- The status-report exclusion at the top of `_is_asking_question`:
`text.startswith("I successfully") or "sum of" in text.lower() or
"sum is" in text.lower()`. -/
def statusExclusion (text : List Char) : Bool :=
  "I successfully".data.isPrefixOf text ||
  infixOf "sum of".data (lowerL text) ||
  infixOf "sum is".data (lowerL text)

/-- The closing-remark condition that suppresses a `please let me know`
match: `"if you need" in text.lower() or "further assistance" in
text.lower()`. -/
def plmkSuppressed (text : List Char) : Bool :=
  infixOf "if you need".data (lowerL text) ||
  infixOf "further assistance".data (lowerL text)

/-- The `for pattern in question_patterns` loop of `_is_asking_question`:
first matching pattern wins; a `please let me know` match returns `false`
instead of `true` when the closing-remark condition holds. -/
def matchLoop (text : List Char) : List Pattern → Bool
  | [] => false
  | p :: ps =>
    if pmatch p text then
      if p = plmkPattern ∧ plmkSuppressed text then false else true
    else matchLoop text ps

/-- `ToolCallAgent._is_asking_question`, on character lists. -/
def isAskingQuestionL (text : List Char) : Bool :=
  if statusExclusion text then false
  else if text.contains '?' then true
  else matchLoop text questionPatterns

/-- `ToolCallAgent._is_asking_question`, on `String`. -/
def isAskingQuestion (text : String) : Bool := isAskingQuestionL text.data

/-! ### Ask-user tool-call synthesizer (`ToolCallAgent._create_ask_user_tool_call`) -/

/-- One step of `question_text.replace('\n', ' ').replace('\r', ' ')`:
both replacements substitute a single character, so their composition is a
character map. -/
def normChar (c : Char) : Char := if c = '\n' ∨ c = '\r' then ' ' else c

/-- The processing `_create_ask_user_tool_call` applies to the question text
before it becomes the `question` field of the argument dictionary: truncate
to 500 characters appending `"..."` (the `max_length` guard), then replace
newlines and carriage returns by spaces. -/
def processQuestionText (t : List Char) : List Char :=
  let t1 := if 500 < t.length then t.take 500 ++ "...".data else t
  t1.map normChar

/-- `json.dumps` escaping for one character (the question texts handled here
contain no control characters other than the already-replaced newlines). -/
def jsonEscapeChar (c : Char) : List Char :=
  if c = '"' then ['\\', '"'] else if c = '\\' then ['\\', '\\'] else [c]

/-- A JSON string literal for `s`. -/
def jsonStr (s : List Char) : List Char :=
  '"' :: (s.map jsonEscapeChar).flatten ++ ['"']

/-- Model of `json.dumps({"question": q, "dangerous_action": False,
"question_type": "follow-up"})` with the default separators. -/
def askUserArgsJson (q : List Char) : String :=
  ⟨"\x7b\"question\": ".data ++ jsonStr q ++
    ", \"dangerous_action\": false, \"question_type\": \"follow-up\"\x7d".data⟩

/-- `ToolCallAgent._create_ask_user_tool_call`.  The Python fallbacks (a
`json.dumps` failure, or a failure constructing the `Function` or `ToolCall`
objects, which yield a simplified question or an empty list) cannot occur in
the model: encoding a dictionary of strings and booleans is total, so the
synthesizer always returns the single `ask_user` call with id
`auto_ask_user`. -/
def createAskUserToolCall (t : List Char) : List ToolCall :=
  [ { id := "auto_ask_user"
    , function :=
      { name := "ask_user"
      , arguments := some (askUserArgsJson (processQuestionText t)) } } ]

/-! ### Agent state, tool environment, executor (`ToolCallAgent.execute_tool`) -/

/-- The mutable fields of a `ToolCallAgent` that the turn controller touches:
run state, conversation memory, the configured special tool names, the
pending tool calls, the tool-choice policy, the `max_observe` truncation
bound (`none` or `some 0` are the falsy Python values), and the standing
`next_step_prompt`. -/
structure ToolCallAgent where
  state : AgentState
  memory : List Message
  special_tool_names : List String
  tool_calls : List ToolCall
  tool_choices : ToolChoice
  max_observe : Option Nat
  next_step_prompt : String
  deriving DecidableEq, Repr

/-- `self.memory.add_message(m)`: append-only. -/
def addMessage (a : ToolCallAgent) (m : Message) : ToolCallAgent :=
  { a with memory := a.memory ++ [m] }

/-- A structured result carrying `requires_user_response: True`; `payload`
stands for `str(result)`, the form in which the signal is recorded in
memory. -/
structure SuspendSignal where
  payload : String
  deriving DecidableEq, Repr

/-- The raw value returned by a registered tool: a falsy value (`None`,
empty string, ...), a truthy value with the given `str(result)`, or a
suspend dictionary whose `requires_user_response` flag is true.  (A
dictionary without that flag is truthy and covered by `output`.) -/
inductive RawResult where
  | noOutput
  | output (s : String)
  | suspendDict (d : SuspendSignal)
  deriving DecidableEq, Repr

/-- The external collaborators of `execute_tool`: the standard library's
`json.loads` (returning `none` exactly on a `JSONDecodeError`, and otherwise
some representation of the parsed arguments) and the tool registry's
`tool_map`, where a registered tool maps parsed arguments to either a raised
exception message or a raw result. -/
structure ToolEnv where
  jsonParse : String → Option String
  tool_map : String → Option (String → Except String RawResult)

/-- `command.function.arguments or "{}"`: Python `or` replaces both `None`
and the empty string by the default. -/
def argOrDefault (o : Option String) : String :=
  match o with
  | none => "\x7b\x7d"
  | some s => if s = "" then "\x7b\x7d" else s

/-- What `execute_tool` hands back to `act`: an observation (or error)
string, or a suspend signal returned directly. -/
inductive ExecResult where
  | obs (s : String)
  | suspend (d : SuspendSignal)
  deriving DecidableEq, Repr

/-- `ToolCallAgent._is_special_tool`: case-insensitive membership in
`special_tool_names`. -/
def isSpecialTool (a : ToolCallAgent) (name : String) : Bool :=
  (a.special_tool_names.map strLower).contains (strLower name)

/-- `ToolCallAgent._should_finish_execution`: the default predicate always
answers true. -/
def shouldFinishExecution (_name : String) (_result : RawResult) : Bool := true

/-- `ToolCallAgent._handle_special_tool`: no-op for non-special names and for
the `ask_user` tool; otherwise transition to FINISHED when the finish
predicate holds. -/
def handleSpecialTool (a : ToolCallAgent) (name : String) (result : RawResult) :
    ToolCallAgent :=
  if ¬ isSpecialTool a name then a
  else if strLower name = "ask_user" then a
  else if shouldFinishExecution name result then { a with state := .FINISHED }
  else a

/-- Modelled from the spec: the registered name of the terminate-class
special tool (`Terminate().name` from `app/tool`, outside the provided
source); the default `special_tool_names` is `[Terminate().name]`. -/
def terminateName : String := "terminate"

/-- `ToolCallAgent.execute_tool`.  The Python method never lets an exception
escape (every failure is converted to an `Error: ...` observation string),
which the total return type reflects.  An empty tool name models the falsy
shape check `not command or not command.function or not
command.function.name`; the unknown-name check precedes argument parsing;
the suspend check precedes formatting and the special-tool policy; the
special-tool policy runs only on the remaining (successful, non-suspend)
path. -/
def executeTool (env : ToolEnv) (a : ToolCallAgent) (cmd : ToolCall) :
    ToolCallAgent × ExecResult :=
  if cmd.function.name = "" then (a, .obs "Error: Invalid command format")
  else
    let name := cmd.function.name
    match env.tool_map name with
    | none => (a, .obs ("Error: Unknown tool '" ++ name ++ "'"))
    | some tool =>
      match env.jsonParse (argOrDefault cmd.function.arguments) with
      | none =>
        (a, .obs ("Error: Error parsing arguments for " ++ name ++
          ": Invalid JSON format"))
      | some args =>
        match tool args with
        | .error e =>
          (a, .obs ("Error: ⚠️ Tool '" ++ name ++ "' encountered a problem: " ++ e))
        | .ok (.suspendDict d) => (a, .suspend d)
        | .ok r =>
          let observation :=
            match r with
            | .output s => "Observed output of cmd `" ++ name ++ "` executed:\n" ++ s
            | _ => "Cmd `" ++ name ++ "` completed with no output"
          (handleSpecialTool a name r, .obs observation)

/-! ### Act phase (`ToolCallAgent.act`) -/

/-- `result[:max_observe]`, applied only when `max_observe` is truthy. -/
def truncObs (mo : Option Nat) (s : String) : String :=
  match mo with
  | some n => if n = 0 then s else strTake s n
  | none => s

/-- The tool-response message `act` records for an observation. -/
def obsMsg (cmd : ToolCall) (o : String) : Message :=
  Message.toolMessage o cmd.id cmd.function.name

/-- The `for command in self.tool_calls` loop of `act`: execute each call in
order; on a suspend signal record the raw signal and stop (remaining calls
are never executed); otherwise truncate, record, and collect the
observation.  Returns the final agent, the collected observations in order,
and the suspend signal if one occurred. -/
def actLoop (env : ToolEnv) :
    ToolCallAgent → List ToolCall → ToolCallAgent × List String × Option SuspendSignal
  | a, [] => (a, [], none)
  | a, cmd :: rest =>
    match executeTool env a cmd with
    | (a1, .suspend d) =>
      (addMessage a1 (Message.toolMessage d.payload cmd.id cmd.function.name),
        [], some d)
    | (a1, .obs s) =>
      let s1 := truncObs a1.max_observe s
      let a2 := addMessage a1 (obsMsg cmd s1)
      let q := actLoop env a2 rest
      (q.1, s1 :: q.2.1, q.2.2)

/-- The module-level constant `TOOL_CALL_REQUIRED`. -/
def TOOL_CALL_REQUIRED : String := "Tool calls required but none provided"

/-- The value `act` returns: the aggregate observation string, or the
suspend signal. -/
inductive ActResult where
  | text (s : String)
  | suspend (d : SuspendSignal)
  deriving DecidableEq, Repr

/-- `ToolCallAgent.act`.  `Except.error` models a raised exception: the
`ValueError(TOOL_CALL_REQUIRED)` when the REQUIRED policy finds no pending
calls, and the `IndexError` of `self.messages[-1]` on empty memory. -/
def act (env : ToolEnv) (a : ToolCallAgent) :
    Except String (ToolCallAgent × ActResult) :=
  if a.tool_calls.isEmpty then
    if a.tool_choices = ToolChoice.REQUIRED then .error TOOL_CALL_REQUIRED
    else
      match a.memory.getLast? with
      | some m =>
        .ok (a, .text (if m.content = "" then "No content or commands to execute"
          else m.content))
      | none => .error "IndexError: messages is empty"
  else
    let r := actLoop env a a.tool_calls
    match r.2.2 with
    | some d => .ok (r.1, .suspend d)
    | none => .ok (r.1, .text (String.intercalate "\n\n" r.2.1))

/-! ### Think phase (`ToolCallAgent.think`) -/

/-- The outcome of the external completion call `self.llm.ask_tool`: a
response (content, which may be empty/falsy, and structured tool calls), a
raised `ValueError`, a raised exception whose `__cause__` is a
`TokenLimitExceeded` with the given string form, or any other raised
exception. -/
inductive LLMOutcome where
  | ok (content : String) (toolCalls : List ToolCall)
  | valueError (msg : String)
  | wrappedTokenLimit (msg : String)
  | otherError (msg : String)
  deriving DecidableEq, Repr

/-- A Python exception escaping `think`. -/
inductive PyExn where
  | valueError (msg : String)
  | other (msg : String)
  deriving DecidableEq, Repr

/-- What `think` does: return a boolean, or let an exception escape. -/
inductive ThinkOutcome where
  | ret (b : Bool)
  | raised (e : PyExn)
  deriving DecidableEq, Repr

/-- Lines 41-43 of `think`: a configured (truthy) `next_step_prompt` is
appended to memory as a user message before the completion call. -/
def nextStepApplied (a : ToolCallAgent) : ToolCallAgent :=
  if a.next_step_prompt = "" then a
  else addMessage a (Message.userMessage a.next_step_prompt)

/-- The terminal assistant message recorded on a wrapped token-limit
failure, where `m` is `str(token_limit_error)`. -/
def tokenLimitMessage (m : String) : String :=
  "Maximum token limit reached, cannot continue execution: " ++ m

/-- The body of `think` after a successful completion call (lines 73-145):
store the tool calls; handle the NONE policy; convert a question-shaped
plain reply into a synthesized `ask_user` call; otherwise record the
assistant message and compute the should-act signal.  The broad
`except Exception` handlers in this region cannot fire in the model (no
modelled operation raises). -/
def thinkAfterResponse (a0 : ToolCallAgent) (content : String)
    (tcs : List ToolCall) : ToolCallAgent × Bool :=
  let a := { a0 with tool_calls := tcs }
  if a.tool_choices = ToolChoice.NONE then
    if content ≠ "" then (addMessage a (Message.assistantMessage content), true)
    else (a, false)
  else
    if tcs.isEmpty ∧ content ≠ "" ∧ isAskingQuestion content then
      let newCalls := createAskUserToolCall content.data
      let a1 := { a with tool_calls := newCalls }
      (addMessage a1
        (Message.fromToolCalls "I need to get more information from you" newCalls),
        true)
    else
      let amsg :=
        if a.tool_calls.isEmpty then Message.assistantMessage content
        else Message.fromToolCalls content a.tool_calls
      let a1 := addMessage a amsg
      if a1.tool_choices = ToolChoice.REQUIRED ∧ a1.tool_calls.isEmpty then (a1, true)
      else if a1.tool_choices = ToolChoice.AUTO ∧ a1.tool_calls.isEmpty then
        (a1, content ≠ "")
      else (a1, ¬ a1.tool_calls.isEmpty)

/-- `ToolCallAgent.think`, as a function of the completion outcome: a
`ValueError` is re-raised unchanged; any other exception with a
`TokenLimitExceeded` cause records one terminal assistant message, sets the
state to FINISHED and returns false; other exceptions propagate; a response
is handled by `thinkAfterResponse`. -/
def think (a : ToolCallAgent) (outcome : LLMOutcome) :
    ToolCallAgent × ThinkOutcome :=
  let a1 := nextStepApplied a
  match outcome with
  | .valueError m => (a1, .raised (.valueError m))
  | .wrappedTokenLimit m =>
    ({ addMessage a1 (Message.assistantMessage (tokenLimitMessage m)) with
        state := .FINISHED }, .ret false)
  | .otherError m => (a1, .raised (.other m))
  | .ok content tcs =>
    let p := thinkAfterResponse a1 content tcs
    (p.1, .ret p.2)

/-! ### Concrete fixtures: a small registry and agent used to instantiate the
theorems on explicit inputs -/

/-- A registered tool echoing its parsed arguments. -/
def echoTool : String → Except String RawResult :=
  fun args => .ok (.output ("echo:" ++ args))

/-- A registered tool returning a falsy result. -/
def quietTool : String → Except String RawResult := fun _ => .ok .noOutput

/-- The ask-user tool: returns a `requires_user_response` dictionary. -/
def askTool : String → Except String RawResult :=
  fun _ => .ok (.suspendDict ⟨"need user input"⟩)

/-- A registered tool that raises. -/
def failTool : String → Except String RawResult := fun _ => .error "boom"

/-- The terminate tool (its result is a plain value). -/
def termTool : String → Except String RawResult :=
  fun _ => .ok (.output "terminated")

/-- A concrete environment: every argument string except `bad` parses, and
five tools are registered. -/
def envW : ToolEnv where
  jsonParse := fun s => if s = "bad" then none else some s
  tool_map := fun n =>
    if n = "echo" then some echoTool
    else if n = "quiet" then some quietTool
    else if n = "ask_user" then some askTool
    else if n = "fail" then some failTool
    else if n = terminateName then some termTool
    else none

/-- A freshly running agent with the default special-tool configuration. -/
def agentW : ToolCallAgent where
  state := .RUNNING
  memory := []
  special_tool_names := [terminateName]
  tool_calls := []
  tool_choices := .AUTO
  max_observe := none
  next_step_prompt := ""

/-- A call to the echo tool. -/
def callEcho : ToolCall := ⟨"id1", ⟨"echo", some "x"⟩⟩

/-- A call to the ask-user tool (which suspends). -/
def callAsk : ToolCall := ⟨"id2", ⟨"ask_user", none⟩⟩

/-- A call naming an unregistered tool. -/
def callUnknown : ToolCall := ⟨"id3", ⟨"nosuch", some "x"⟩⟩

/-- A call with syntactically malformed JSON arguments. -/
def callBadJson : ToolCall := ⟨"id4", ⟨"echo", some "bad"⟩⟩

/-- A call naming the terminate special tool but carrying malformed JSON. -/
def callTermBadJson : ToolCall := ⟨"id5", ⟨terminateName, some "bad"⟩⟩

/-- A call to the raising tool. -/
def callFail : ToolCall := ⟨"id6", ⟨"fail", some "x"⟩⟩

/-- A well-formed call to the terminate special tool. -/
def callTerm : ToolCall := ⟨"id7", ⟨terminateName, some "x"⟩⟩

/-- A call with a falsy (empty) tool name: the invalid-shape case. -/
def callNoName : ToolCall := ⟨"id8", ⟨"", some "x"⟩⟩

/-- A call to the falsy-result tool. -/
def callQuiet : ToolCall := ⟨"id9", ⟨"quiet", some "x"⟩⟩

/-- The observation the echo call produces. -/
def echoObs : String := "Observed output of cmd `echo` executed:\necho:x"

/-- The agent with three pending calls, the second of which suspends. -/
def agentC1 : ToolCallAgent :=
  { agentW with tool_calls := [callEcho, callAsk, callQuiet] }

/-- `agentC1` after the act loop has processed the echo call. -/
def agentC1mid : ToolCallAgent := addMessage agentC1 (obsMsg callEcho echoObs)

/-- The agent with two pending calls, neither of which suspends. -/
def agentC2 : ToolCallAgent :=
  { agentW with tool_calls := [callEcho, callQuiet] }

/-- The observation the quiet call produces. -/
def quietObs : String := "Cmd `quiet` completed with no output"

/-- `agentC2` after the act loop has processed the echo call. -/
def agentC2mid : ToolCallAgent := addMessage agentC2 (obsMsg callEcho echoObs)

/-! ## Helper lemmas -/

/-- The special-tool policy only ever touches the run state. -/
theorem handleSpecialTool_memory (a : ToolCallAgent) (n : String) (r : RawResult) :
    (handleSpecialTool a n r).memory = a.memory := by
  unfold handleSpecialTool
  repeat' split
  all_goals rfl

/-- The special-tool policy leaves `max_observe` unchanged. -/
theorem handleSpecialTool_max_observe (a : ToolCallAgent) (n : String)
    (r : RawResult) : (handleSpecialTool a n r).max_observe = a.max_observe := by
  unfold handleSpecialTool
  repeat' split
  all_goals rfl

/-- `execute_tool` never touches conversation memory. -/
theorem executeTool_memory (env : ToolEnv) (a : ToolCallAgent) (cmd : ToolCall) :
    (executeTool env a cmd).1.memory = a.memory := by
  unfold executeTool
  dsimp only
  repeat' split
  all_goals first
    | rfl
    | exact handleSpecialTool_memory ..

/-- `execute_tool` never touches `max_observe`. -/
theorem executeTool_max_observe (env : ToolEnv) (a : ToolCallAgent)
    (cmd : ToolCall) : (executeTool env a cmd).1.max_observe = a.max_observe := by
  unfold executeTool
  dsimp only
  repeat' split
  all_goals first
    | rfl
    | exact handleSpecialTool_max_observe ..

/-- Every message the act loop's non-suspend steps record is a tool-response
message. -/
theorem zipWith_obsMsg_role :
    ∀ (cs : List ToolCall) (os : List String),
      ∀ m ∈ List.zipWith obsMsg cs os, m.role = Role.tool := by
  intro cs
  induction cs with
  | nil => intro os m hm; simp at hm
  | cons c cs ih =>
    intro os m hm
    cases os with
    | nil => simp at hm
    | cons o os =>
      rcases List.mem_cons.mp hm with h | h
      · subst h; rfl
      · exact ih os m h

/-- A run of the act loop that does not suspend appends exactly one
tool-response message per call, in call order, carrying the collected
observations. -/
theorem actLoop_no_suspend (env : ToolEnv) :
    ∀ (cs : List ToolCall) (a : ToolCallAgent),
      (actLoop env a cs).2.2 = none →
      (actLoop env a cs).1.memory
          = a.memory ++ List.zipWith obsMsg cs (actLoop env a cs).2.1
        ∧ (actLoop env a cs).2.1.length = cs.length := by
  intro cs
  induction cs with
  | nil => intro a _; simp [actLoop]
  | cons cmd rest ih =>
    intro a h
    rcases hxe : executeTool env a cmd with ⟨a1, r⟩
    cases r with
    | suspend d =>
      rw [actLoop, hxe] at h
      simp at h
    | obs s =>
      rw [actLoop, hxe] at h ⊢
      simp only at h ⊢
      have ha1 : a1.memory = a.memory := by
        have := executeTool_memory env a cmd
        rw [hxe] at this
        exact this
      obtain ⟨hmem, hlen⟩ :=
        ih (addMessage a1 (obsMsg cmd (truncObs a1.max_observe s))) h
      refine ⟨?_, by simpa using hlen⟩
      rw [hmem]
      simp [addMessage, ha1, List.zipWith]

/-- Extending the call list after a non-suspending run continues from the
state the run produced. -/
theorem actLoop_append (env : ToolEnv) :
    ∀ (xs : List ToolCall) (a a1 : ToolCallAgent) (obs : List String)
      (ys : List ToolCall), actLoop env a xs = (a1, obs, none) →
      actLoop env a (xs ++ ys)
        = ((actLoop env a1 ys).1, obs ++ (actLoop env a1 ys).2.1,
           (actLoop env a1 ys).2.2) := by
  intro xs
  induction xs with
  | nil =>
    intro a a1 obs ys h
    rw [actLoop] at h
    injection h with h1 h2
    injection h2 with h3 h4
    subst h1; subst h3
    simp
  | cons cmd rest ih =>
    intro a a1 obs ys h
    rcases hxe : executeTool env a cmd with ⟨a', r⟩
    cases r with
    | suspend d =>
      rw [actLoop, hxe] at h
      simp at h
    | obs s =>
      rw [actLoop, hxe] at h
      simp only at h
      have h1 : (actLoop env
          (addMessage a' (obsMsg cmd (truncObs a'.max_observe s))) rest)
          = (a1, ((actLoop env
              (addMessage a' (obsMsg cmd (truncObs a'.max_observe s)))
              rest).2.1), none) := by
        have e1 := congrArg Prod.fst h
        have e2 := congrArg (fun p => p.2.2) h
        simp only at e1 e2
        exact Prod.ext e1 (Prod.ext rfl e2)
      have e3 := congrArg (fun p => p.2.1) h
      simp only at e3
      rw [List.cons_append, actLoop, hxe]
      simp only
      rw [ih _ _ _ ys h1, ← e3]
      simp

/-- Skipping an initial segment of patterns none of which matches. -/
theorem matchLoop_skip (t : List Char) :
    ∀ (ps1 ps2 : List Pattern), (∀ p ∈ ps1, pmatch p t = false) →
      matchLoop t (ps1 ++ ps2) = matchLoop t ps2 := by
  intro ps1
  induction ps1 with
  | nil => intro ps2 _; rfl
  | cons p ps ih =>
    intro ps2 h
    have hp : pmatch p t = false := h p (List.mem_cons_self ..)
    rw [List.cons_append, matchLoop, hp]
    · exact ih ps2 fun q hq => h q (List.mem_cons_of_mem _ hq)

/-- For any name whose lowercase form is `ask_user`, the special-tool policy
is the identity, whether or not the name is configured as special. -/
theorem handleSpecialTool_askUser (a : ToolCallAgent) (r : RawResult)
    (name : String) (h : strLower name = "ask_user") :
    handleSpecialTool a name r = a := by
  unfold handleSpecialTool
  by_cases hs : isSpecialTool a name = true
  · simp [hs, h]
  · simp [hs]

/-! ## Claims -/

/-- C3: with the default configuration `special_tool_names =
[Terminate().name]`, executing a special tool whose name case-insensitively
matches the terminate tool transitions the run state to FINISHED, while the
ask-user special tool performs no state transition at all (so a RUNNING
agent stays RUNNING). -/
theorem claim_C3 :
    (∀ (a : ToolCallAgent) (r : RawResult) (name : String),
      a.special_tool_names = [terminateName] → strLower name = "terminate" →
      (handleSpecialTool a name r).state = AgentState.FINISHED)
  ∧ (∀ (a : ToolCallAgent) (r : RawResult) (name : String),
      strLower name = "ask_user" → handleSpecialTool a name r = a)
  ∧ (∀ (a : ToolCallAgent) (r : RawResult) (name : String),
      a.state = AgentState.RUNNING → strLower name = "ask_user" →
      (handleSpecialTool a name r).state = AgentState.RUNNING) := by
  refine ⟨?_, fun a r name h => handleSpecialTool_askUser a r name h,
    fun a r name hst h => by rw [handleSpecialTool_askUser a r name h]; exact hst⟩
  intro a r name hstn h
  have hspec : isSpecialTool a name = true := by
    rw [isSpecialTool, hstn, h]; decide
  have h2 : ¬ strLower name = "ask_user" := by rw [h]; decide
  simp [handleSpecialTool, hspec, h2, shouldFinishExecution]

/-- C3 witness: `TERMINATE` (any casing) finishes the default agent, while
`Ask_User` leaves the running agent untouched. -/
theorem claim_C3_witness :
    (handleSpecialTool agentW "TERMINATE" (RawResult.output "done")).state
      = AgentState.FINISHED
  ∧ handleSpecialTool agentW "Ask_User" RawResult.noOutput = agentW
  ∧ (handleSpecialTool agentW "Ask_User" RawResult.noOutput).state
      = AgentState.RUNNING :=
  ⟨claim_C3.1 agentW (RawResult.output "done") "TERMINATE" rfl (by decide),
   claim_C3.2.1 agentW RawResult.noOutput "Ask_User" (by decide),
   claim_C3.2.2 agentW RawResult.noOutput "Ask_User" rfl (by decide)⟩

/-- C4: a completion call failing with an exception whose `__cause__` is a
`TokenLimitExceeded` is absorbed by `think`: no exception escapes (the
result is `return False`), the run state becomes FINISHED, and exactly one
assistant message describing the token limit is appended to memory; a
`ValueError` from the completion call is re-raised unchanged. -/
theorem claim_C4 (a : ToolCallAgent) (m : String) :
    (think a (.wrappedTokenLimit m)).2 = ThinkOutcome.ret false
  ∧ (think a (.wrappedTokenLimit m)).1.state = AgentState.FINISHED
  ∧ (think a (.wrappedTokenLimit m)).1.memory
      = (nextStepApplied a).memory
          ++ [Message.assistantMessage (tokenLimitMessage m)]
  ∧ (Message.assistantMessage (tokenLimitMessage m)).role = Role.assistant
  ∧ think a (.valueError m) = (nextStepApplied a, .raised (.valueError m)) :=
  ⟨rfl, rfl, rfl, rfl, rfl⟩

/-- C7: any text containing a literal question mark classifies as a question
exactly when it does not match the status-report exclusion (starts with
`I successfully`, or contains `sum of` / `sum is` case-insensitively);
in particular the two spec examples. -/
theorem claim_C7 :
    (∀ t : List Char, t.contains '?' = true →
      isAskingQuestionL t = !(statusExclusion t))
  ∧ isAskingQuestion "Done! Is that fine?" = true
  ∧ isAskingQuestion "I successfully computed the sum is 5?" = false := by
  refine ⟨?_, by decide, by decide⟩
  intro t h
  unfold isAskingQuestionL
  by_cases he : statusExclusion t = true
  · simp [he]
  · have he' : statusExclusion t = false := by simpa using he
    rw [he', h]
    rfl

/-- C7 witness: the general question-mark rule applied to the concrete
input `Done! Is that fine?`. -/
theorem claim_C7_witness :
    isAskingQuestionL ("Done! Is that fine?".data)
      = !(statusExclusion ("Done! Is that fine?".data)) :=
  claim_C7.1 ("Done! Is that fine?".data) (by decide)

/-- C9: the `question` field the synthesizer builds is exactly the first 500
characters of the newline-normalized text followed by the `...` marker when
the text exceeds 500 characters, and the whole normalized text otherwise
(truncation and character-wise newline normalization commute); the
synthesized call carries that field, the fixed id `auto_ask_user` and the
fixed tool name `ask_user`. -/
theorem claim_C9 (t : List Char) :
    (500 < t.length →
      processQuestionText t = (t.map normChar).take 500 ++ "...".data
      ∧ ((t.map normChar).take 500).length = 500)
  ∧ (t.length ≤ 500 → processQuestionText t = t.map normChar)
  ∧ createAskUserToolCall t
      = [⟨"auto_ask_user", ⟨"ask_user",
          some (askUserArgsJson (processQuestionText t))⟩⟩] := by
  refine ⟨?_, ?_, rfl⟩
  · intro h
    constructor
    · unfold processQuestionText
      rw [if_pos h, List.map_append, List.map_take]
      congr 1
    · rw [List.length_take, List.length_map]
      omega
  · intro h
    unfold processQuestionText
    rw [if_neg (by omega)]

/-- C9 witness: a 501-character text is truncated to 500 plus the marker; a
short text with a newline is only normalized. -/
theorem claim_C9_witness :
    processQuestionText (List.replicate 501 'a')
      = ((List.replicate 501 'a').map normChar).take 500 ++ "...".data
  ∧ processQuestionText ("hi\nthere".data) = ("hi\nthere".data).map normChar :=
  ⟨((claim_C9 (List.replicate 501 'a')).1
      (by simp only [List.length_replicate]; omega)).1,
   (claim_C9 ("hi\nthere".data)).2.1 (by decide)⟩

/-- C10: every error path of `execute_tool` — falsy command shape, unknown
tool name, JSON argument parse failure, or an exception raised by the tool —
returns with the agent (in particular its run state) unchanged: the error
branches return the error observation without invoking the special-tool
policy, even when the call names a special tool such as terminate. -/
theorem claim_C10 :
    (∀ (env : ToolEnv) (a : ToolCallAgent) (cmd : ToolCall),
      cmd.function.name = "" → (executeTool env a cmd).1 = a)
  ∧ (∀ (env : ToolEnv) (a : ToolCallAgent) (cmd : ToolCall),
      env.tool_map cmd.function.name = none → (executeTool env a cmd).1 = a)
  ∧ (∀ (env : ToolEnv) (a : ToolCallAgent) (cmd : ToolCall)
      (tool : String → Except String RawResult),
      env.tool_map cmd.function.name = some tool →
      env.jsonParse (argOrDefault cmd.function.arguments) = none →
      (executeTool env a cmd).1 = a)
  ∧ (∀ (env : ToolEnv) (a : ToolCallAgent) (cmd : ToolCall)
      (tool : String → Except String RawResult) (args e : String),
      env.tool_map cmd.function.name = some tool →
      env.jsonParse (argOrDefault cmd.function.arguments) = some args →
      tool args = .error e → (executeTool env a cmd).1 = a) := by
  refine ⟨?_, ?_, ?_, ?_⟩
  · intro env a cmd h
    simp [executeTool, h]
  · intro env a cmd h
    by_cases hn : cmd.function.name = ""
    · simp [executeTool, hn]
    · simp [executeTool, hn, h]
  · intro env a cmd tool ht hp
    by_cases hn : cmd.function.name = ""
    · simp [executeTool, hn]
    · simp [executeTool, hn, ht, hp]
  · intro env a cmd tool args e ht hp he
    by_cases hn : cmd.function.name = ""
    · simp [executeTool, hn]
    · simp [executeTool, hn, ht, hp, he]

/-- C10 witness: the four error paths on the concrete fixtures — including a
malformed-JSON call that names the terminate special tool — all leave the
agent unchanged. -/
theorem claim_C10_witness :
    (executeTool envW agentW callNoName).1 = agentW
  ∧ (executeTool envW agentW callUnknown).1 = agentW
  ∧ (executeTool envW agentW callTermBadJson).1 = agentW
  ∧ (executeTool envW agentW callFail).1 = agentW :=
  ⟨claim_C10.1 envW agentW callNoName rfl,
   claim_C10.2.1 envW agentW callUnknown rfl,
   claim_C10.2.2.1 envW agentW callTermBadJson termTool rfl rfl,
   claim_C10.2.2.2 envW agentW callFail failTool "x" "boom" rfl rfl rfl⟩

/-- C1: when the act phase runs the pending calls `pre ++ c :: post` and the
executor suspends at `c` (position `k = pre.length + 1`, the `pre` prefix
running without suspension), then exactly `k` tool-response messages are
appended to memory (one per executed call, all tool-role, the last recording
the raw signal), and `act` returns the suspend signal itself rather than a
joined aggregate string.  The conclusion never mentions `post`, although the
hypotheses allow it to be arbitrary: the calls after `c` are never
executed. -/
theorem claim_C1 (env : ToolEnv) (a a1 : ToolCallAgent)
    (pre post : List ToolCall) (c : ToolCall) (obs : List String)
    (d : SuspendSignal)
    (hcalls : a.tool_calls = pre ++ c :: post)
    (hpre : actLoop env a pre = (a1, obs, none))
    (hc : (executeTool env a1 c).2 = ExecResult.suspend d) :
    act env a = Except.ok
      (addMessage (executeTool env a1 c).1
        (Message.toolMessage d.payload c.id c.function.name),
       ActResult.suspend d)
  ∧ (addMessage (executeTool env a1 c).1
      (Message.toolMessage d.payload c.id c.function.name)).memory
      = a.memory ++ (List.zipWith obsMsg pre obs
          ++ [Message.toolMessage d.payload c.id c.function.name])
  ∧ obs.length = pre.length
  ∧ (List.zipWith obsMsg pre obs
      ++ [Message.toolMessage d.payload c.id c.function.name]).length
      = pre.length + 1
  ∧ (∀ m ∈ List.zipWith obsMsg pre obs
      ++ [Message.toolMessage d.payload c.id c.function.name],
      m.role = Role.tool) := by
  rcases hxe : executeTool env a1 c with ⟨a2, r⟩
  have hr : r = ExecResult.suspend d := by rw [hxe] at hc; exact hc
  subst hr
  have hQ : actLoop env a1 (c :: post)
      = (addMessage a2 (Message.toolMessage d.payload c.id c.function.name),
         [], some d) := by
    rw [actLoop, hxe]
  have happ := actLoop_append env pre a a1 obs (c :: post) hpre
  rw [hQ] at happ
  simp only [List.append_nil] at happ
  obtain ⟨hmem, hlen⟩ := actLoop_no_suspend env pre a (by rw [hpre])
  rw [hpre] at hmem hlen
  simp only at hmem hlen
  have ha2mem : a2.memory = a1.memory := by
    have h := executeTool_memory env a1 c
    rw [hxe] at h
    exact h
  refine ⟨?_, ?_, hlen, ?_, ?_⟩
  · unfold act
    rw [hcalls]
    have hne : (pre ++ c :: post).isEmpty = false := by simp
    rw [hne, happ]
    rfl
  · simp only [addMessage, ha2mem, hmem]
    simp [List.append_assoc]
  · rw [List.length_append, List.length_zipWith, hlen]
    simp
  · intro m hm
    rcases List.mem_append.mp hm with h | h
    · exact zipWith_obsMsg_role pre obs m h
    · simp only [List.mem_singleton] at h
      subst h
      rfl

/-- C1 witness: three pending calls, the second (the ask-user call)
suspends; `act` returns the suspend signal and memory holds exactly two
tool-response messages. -/
theorem claim_C1_witness :
    act envW agentC1 = Except.ok
      (addMessage (executeTool envW agentC1mid callAsk).1
        (Message.toolMessage (SuspendSignal.mk "need user input").payload
          callAsk.id callAsk.function.name),
       ActResult.suspend ⟨"need user input"⟩) :=
  (claim_C1 envW agentC1 agentC1mid [callEcho] [callQuiet] callAsk [echoObs]
    ⟨"need user input"⟩ rfl (by decide) (by decide)).1

/-- C2: when the act phase runs `N` pending calls and none suspends, exactly
`N` tool-response messages are appended in call order (the `i`-th keyed by
the `i`-th call), and `act` returns the `N` per-call observation strings
joined with the blank-line separator. -/
theorem claim_C2 (env : ToolEnv) (a aF : ToolCallAgent) (cs : List ToolCall)
    (obs : List String) (h1 : a.tool_calls = cs) (h2 : cs ≠ [])
    (h3 : actLoop env a cs = (aF, obs, none)) :
    act env a = Except.ok (aF, ActResult.text (String.intercalate "\n\n" obs))
  ∧ aF.memory = a.memory ++ List.zipWith obsMsg cs obs
  ∧ obs.length = cs.length
  ∧ ∀ m ∈ List.zipWith obsMsg cs obs, m.role = Role.tool := by
  obtain ⟨hmem, hlen⟩ := actLoop_no_suspend env cs a (by rw [h3])
  rw [h3] at hmem hlen
  simp only at hmem hlen
  have hne : cs.isEmpty = false := by
    cases cs
    · exact absurd rfl h2
    · rfl
  refine ⟨?_, hmem, hlen, zipWith_obsMsg_role cs obs⟩
  unfold act
  rw [h1, hne, h3]
  rfl

/-- C2 witness: two calls, no suspension; the aggregate is the two
observation blocks separated by a blank line and memory gains the two
tool-response messages in order. -/
theorem claim_C2_witness :
    act envW agentC2 = Except.ok
      (addMessage agentC2mid (obsMsg callQuiet quietObs),
       ActResult.text (String.intercalate "\n\n" [echoObs, quietObs]))
  ∧ (addMessage agentC2mid (obsMsg callQuiet quietObs)).memory
      = agentC2.memory
          ++ List.zipWith obsMsg [callEcho, callQuiet] [echoObs, quietObs] :=
  ⟨(claim_C2 envW agentC2 (addMessage agentC2mid (obsMsg callQuiet quietObs))
      [callEcho, callQuiet] [echoObs, quietObs] rfl (by decide) (by decide)).1,
   (claim_C2 envW agentC2 (addMessage agentC2mid (obsMsg callQuiet quietObs))
      [callEcho, callQuiet] [echoObs, quietObs] rfl (by decide) (by decide)).2.1⟩

/-- C5: `execute_tool` never raises on an unregistered tool name or on
malformed JSON arguments — it returns the respective error observation
string (naming the tool, with the `Unknown tool` marker, respectively
describing the invalid JSON) and leaves the agent unchanged; and processing
any call whose execution yields a string observation appends exactly one
tool-response message, keyed by the original call id, before the act loop
moves on — never zero and never more. -/
theorem claim_C5 :
    (∀ (env : ToolEnv) (a : ToolCallAgent) (cmd : ToolCall),
      cmd.function.name ≠ "" → env.tool_map cmd.function.name = none →
      executeTool env a cmd
        = (a, .obs ("Error: Unknown tool '" ++ cmd.function.name ++ "'")))
  ∧ (∀ (env : ToolEnv) (a : ToolCallAgent) (cmd : ToolCall)
      (tool : String → Except String RawResult),
      cmd.function.name ≠ "" → env.tool_map cmd.function.name = some tool →
      env.jsonParse (argOrDefault cmd.function.arguments) = none →
      executeTool env a cmd
        = (a, .obs ("Error: Error parsing arguments for " ++ cmd.function.name
            ++ ": Invalid JSON format")))
  ∧ (∀ (env : ToolEnv) (a : ToolCallAgent) (cmd : ToolCall)
      (rest : List ToolCall) (s : String),
      executeTool env a cmd = (a, .obs s) →
      actLoop env a (cmd :: rest)
        = ((actLoop env
              (addMessage a (obsMsg cmd (truncObs a.max_observe s))) rest).1,
           truncObs a.max_observe s
             :: (actLoop env
              (addMessage a (obsMsg cmd (truncObs a.max_observe s))) rest).2.1,
           (actLoop env
              (addMessage a (obsMsg cmd (truncObs a.max_observe s))) rest).2.2)
      ∧ (obsMsg cmd (truncObs a.max_observe s)).tool_call_id = some cmd.id
      ∧ (addMessage a (obsMsg cmd (truncObs a.max_observe s))).memory
          = a.memory ++ [obsMsg cmd (truncObs a.max_observe s)]) := by
  refine ⟨?_, ?_, ?_⟩
  · intro env a cmd hn h
    simp [executeTool, hn, h]
  · intro env a cmd tool hn ht hp
    simp [executeTool, hn, ht, hp]
  · intro env a cmd rest s h
    refine ⟨?_, rfl, rfl⟩
    rw [actLoop, h]

/-- C5 witness: the unknown-tool call and the malformed-JSON call on the
concrete fixtures, and the single tool-response message the act loop records
for the unknown-tool call. -/
theorem claim_C5_witness :
    executeTool envW agentW callUnknown
      = (agentW, .obs ("Error: Unknown tool '" ++ "nosuch" ++ "'"))
  ∧ executeTool envW agentW callBadJson
      = (agentW, .obs ("Error: Error parsing arguments for " ++ "echo"
          ++ ": Invalid JSON format"))
  ∧ (obsMsg callUnknown
      (truncObs agentW.max_observe "Error: Unknown tool 'nosuch'")).tool_call_id
      = some callUnknown.id :=
  ⟨claim_C5.1 envW agentW callUnknown (by decide) rfl,
   claim_C5.2.1 envW agentW callBadJson echoTool (by decide) rfl rfl,
   (claim_C5.2.2 envW agentW callUnknown []
      "Error: Unknown tool 'nosuch'" (by decide)).2.1⟩

/-- C6 counterexample: the claim asserts the special-tool policy is applied
for every processed call, including calls ending in an error branch.  For
the concrete call naming the terminate special tool but carrying malformed
JSON arguments, applying the policy would finish the agent, yet
`execute_tool` leaves the state RUNNING: the error branch returns without
invoking the policy. -/
theorem claim_C6_counterexample :
    (executeTool envW agentW callTermBadJson).1.state = AgentState.RUNNING
  ∧ (handleSpecialTool agentW callTermBadJson.function.name
      RawResult.noOutput).state = AgentState.FINISHED
  ∧ AgentState.RUNNING ≠ AgentState.FINISHED := by
  refine ⟨rfl, rfl, by decide⟩

/-- C6 (amended): the special-tool policy is applied, with the tool name and
raw result, on every call that executes successfully and does not return a
suspend signal — regardless of the formatting outcome (truthy output vs the
no-output branch); calls whose execution ends in an error branch, and calls
whose result is a suspend signal, bypass the policy and leave the agent
unchanged. -/
theorem claim_C6 :
    (∀ (env : ToolEnv) (a : ToolCallAgent) (cmd : ToolCall)
      (tool : String → Except String RawResult) (args : String),
      cmd.function.name ≠ "" → env.tool_map cmd.function.name = some tool →
      env.jsonParse (argOrDefault cmd.function.arguments) = some args →
      tool args = .ok RawResult.noOutput →
      (executeTool env a cmd).1
        = handleSpecialTool a cmd.function.name RawResult.noOutput)
  ∧ (∀ (env : ToolEnv) (a : ToolCallAgent) (cmd : ToolCall)
      (tool : String → Except String RawResult) (args s : String),
      cmd.function.name ≠ "" → env.tool_map cmd.function.name = some tool →
      env.jsonParse (argOrDefault cmd.function.arguments) = some args →
      tool args = .ok (RawResult.output s) →
      (executeTool env a cmd).1
        = handleSpecialTool a cmd.function.name (RawResult.output s))
  ∧ (∀ (env : ToolEnv) (a : ToolCallAgent) (cmd : ToolCall)
      (tool : String → Except String RawResult) (args : String)
      (d : SuspendSignal),
      env.tool_map cmd.function.name = some tool →
      env.jsonParse (argOrDefault cmd.function.arguments) = some args →
      tool args = .ok (RawResult.suspendDict d) →
      (executeTool env a cmd).1 = a) := by
  refine ⟨?_, ?_, ?_⟩
  · intro env a cmd tool args hn ht hp hr
    simp [executeTool, hn, ht, hp, hr]
  · intro env a cmd tool args s hn ht hp hr
    simp [executeTool, hn, ht, hp, hr]
  · intro env a cmd tool args d ht hp hr
    by_cases hn : cmd.function.name = ""
    · simp [executeTool, hn]
    · simp [executeTool, hn, ht, hp, hr]

/-- C6 witness: the policy is applied on both formatting branches (the
no-output quiet call, and the terminate call whose application finishes the
agent), while a suspend result bypasses it. -/
theorem claim_C6_witness :
    (executeTool envW agentW callQuiet).1
      = handleSpecialTool agentW "quiet" RawResult.noOutput
  ∧ (executeTool envW agentW callTerm).1
      = handleSpecialTool agentW terminateName (RawResult.output "terminated")
  ∧ (executeTool envW agentW callAsk).1 = agentW :=
  ⟨claim_C6.1 envW agentW callQuiet quietTool "x" (by decide) rfl rfl rfl,
   claim_C6.2.1 envW agentW callTerm termTool "x" "terminated"
     (by decide) rfl rfl rfl,
   claim_C6.2.2 envW agentW callAsk askTool "\x7b\x7d" ⟨"need user input"⟩
     rfl rfl rfl⟩

/-- C8: `Would you like me to continue?` classifies true and `If you need
any further assistance, let me know.` classifies false; in general, when the
pattern the loop selects (the first matching one, outside the exclusion and
question-mark cases) is `please let me know`, the match is suppressed
exactly when the text also contains `if you need` or `further assistance`
case-insensitively, while any other selected pattern always yields true. -/
theorem claim_C8 :
    isAskingQuestion "Would you like me to continue?" = true
  ∧ isAskingQuestion "If you need any further assistance, let me know." = false
  ∧ (∀ (t : List Char) (ps1 ps2 : List Pattern),
      statusExclusion t = false → t.contains '?' = false →
      questionPatterns = ps1 ++ plmkPattern :: ps2 →
      (∀ p ∈ ps1, pmatch p t = false) →
      pmatch plmkPattern t = true →
      (isAskingQuestionL t = false ↔ plmkSuppressed t = true))
  ∧ (∀ (t : List Char) (ps1 ps2 : List Pattern) (p : Pattern),
      statusExclusion t = false → t.contains '?' = false →
      questionPatterns = ps1 ++ p :: ps2 → p ≠ plmkPattern →
      (∀ q ∈ ps1, pmatch q t = false) →
      pmatch p t = true →
      isAskingQuestionL t = true) := by
  refine ⟨by decide, by decide, ?_, ?_⟩
  · intro t ps1 ps2 hex hq hsplit hps1 hp
    unfold isAskingQuestionL
    rw [hex, hq, hsplit, matchLoop_skip t ps1 _ hps1, matchLoop, hp]
    by_cases hs : plmkSuppressed t = true
    · simp [hs]
    · simp [hs]
  · intro t ps1 ps2 p hex hq hsplit hne hps1 hp
    unfold isAskingQuestionL
    rw [hex, hq, hsplit, matchLoop_skip t ps1 _ hps1, matchLoop, hp]
    simp [hne]

/-- C8 witness: the suppression rule applied to a concrete closing remark
(`please let me know` + `if you need`, selected by the loop, classifies
false) and the no-suppression rule applied to a concrete `could you`
request. -/
theorem claim_C8_witness :
    (isAskingQuestionL ("Please let me know if you need more.".data) = false
      ↔ plmkSuppressed ("Please let me know if you need more.".data) = true)
  ∧ isAskingQuestionL ("Could you clarify the target file.".data) = true :=
  ⟨claim_C8.2.2.1 ("Please let me know if you need more.".data)
      [.lit "would you like".data, .lit "do you want".data, .lit "can you".data,
       .lit "could you".data, .lit "please provide".data]
      [.lit "please specify".data, .lit "tell me".data,
       .dotStar "what".data ["would".data, "should".data, "can".data, "could".data],
       .dotStar "how".data ["would".data, "should".data, "can".data, "could".data],
       .dotStar "which".data ["option".data, "choice".data],
       .lit "if you have".data, .lit "if you would like".data]
      (by decide) (by decide) (by decide) (by decide) (by decide),
   claim_C8.2.2.2 ("Could you clarify the target file.".data)
      [.lit "would you like".data, .lit "do you want".data, .lit "can you".data]
      [.lit "please provide".data, .lit "please let me know".data,
       .lit "please specify".data, .lit "tell me".data,
       .dotStar "what".data ["would".data, "should".data, "can".data, "could".data],
       .dotStar "how".data ["would".data, "should".data, "can".data, "could".data],
       .dotStar "which".data ["option".data, "choice".data],
       .lit "if you have".data, .lit "if you would like".data]
      (.lit "could you".data)
      (by decide) (by decide) (by decide) (by decide) (by decide) (by decide)⟩

end OM
